import Mathlib

/-!
Verification of the wire-level Protobuf schema-registry serialization core
(`src/confluent_kafka/schema_registry/protobuf.py`).

The Python code is shallowly embedded below.  Python integers are arbitrary
precision, so they are modelled by `Int` (or `Nat` where the source value is
provably non-negative); Python's bitwise operators on negative integers act on
the infinite two's-complement representation, which is modelled by the `py*`
functions by case analysis on the sign.  Byte buffers are `List Nat` (each
element one byte).  Exceptions are modelled with `Option`/`Except`, and the
one `while` loop whose termination is data dependent (`_write_varint`) takes
explicit fuel, `none` meaning the loop was still running when the fuel ran
out.
-/

/-- Python `~` on arbitrary-precision integers: `~a = -a - 1`. -/
def pyNot (a : Int) : Int := -a - 1

/-- Bitwise "and-not" on naturals (`m &&& ~n` over the infinitely many bits of
two's complement): the bits of `m` that are also bits of `n` are removed from
`m` by XOR, since `a ^^ (a && b) = a && !b` bitwise. -/
def natAndNot (m n : Nat) : Nat := m ^^^ (m &&& n)

/-- Python `&` on arbitrary-precision integers (infinite two's complement):
negative operands behave as the complement of their magnitude, computed here
by case analysis on the `Int` constructors. -/
def pyAnd : Int → Int → Int
  | .ofNat m, .ofNat n => .ofNat (m &&& n)
  | .ofNat m, .negSucc n => .ofNat (natAndNot m n)
  | .negSucc m, .ofNat n => .ofNat (natAndNot n m)
  | .negSucc m, .negSucc n => .negSucc (m ||| n)

/-- Python `|` on arbitrary-precision integers (infinite two's complement). -/
def pyOr : Int → Int → Int
  | .ofNat m, .ofNat n => .ofNat (m ||| n)
  | .ofNat m, .negSucc n => .negSucc (natAndNot n m)
  | .negSucc m, .ofNat n => .negSucc (natAndNot m n)
  | .negSucc m, .negSucc n => .negSucc (m &&& n)

/-- Python `^` on arbitrary-precision integers (infinite two's complement). -/
def pyXor : Int → Int → Int
  | .ofNat m, .ofNat n => .ofNat (m ^^^ n)
  | .ofNat m, .negSucc n => .negSucc (m ^^^ n)
  | .negSucc m, .ofNat n => .negSucc (m ^^^ n)
  | .negSucc m, .negSucc n => .ofNat (m ^^^ n)

/-- Python `<<` on integers: multiplication by a power of two. -/
def pyShl (a : Int) (n : Nat) : Int := a * 2 ^ n

/-- Python `>>` on integers: arithmetic (floor) shift; on the negative
constructor it keeps the value negative, matching floor division. -/
def pyShr : Int → Nat → Int
  | .ofNat m, n => .ofNat (m >>> n)
  | .negSucc m, n => .negSucc (m >>> n)

/-- The zig-zag remap performed by `ProtobufSerializer._write_varint` when
`zigzag=True`: `val = (val << 1) ^ (val >> 63)`. -/
def zigzagRemap (val : Int) : Int := pyXor (pyShl val 1) (pyShr val 63)

/-- The loop body of `ProtobufSerializer._write_varint`:
`while (val & ~0x7f) != 0: buf.write(_bytes((val & 0x7f) | 0x80)); val >>= 7`,
then `buf.write(_bytes(val))`.  Fuel-indexed; `none` means the loop had not
terminated after `fuel` iterations. -/
def writeVarintLoop : Nat → Int → List Nat → Option (List Nat)
  | 0, _, _ => none
  | fuel + 1, val, acc =>
    if pyAnd val (pyNot 0x7f) ≠ 0 then
      writeVarintLoop fuel (pyShr val 7) (acc ++ [(pyOr (pyAnd val 0x7f) 0x80).toNat])
    else
      some (acc ++ [val.toNat])

/-- Fuel used for concrete evaluation of `_write_varint`: 64 iterations cover
every value of magnitude below `2 ^ 441`, far beyond the 64-bit inputs in
scope. -/
def varintFuel : Nat := 64

/-- `ProtobufSerializer._write_varint(buf, val, zigzag)`, returning the bytes
appended to the buffer, or `none` if the loop does not terminate within
`varintFuel` iterations. -/
def write_varint (val : Int) (zigzag : Bool) : Option (List Nat) :=
  writeVarintLoop varintFuel (if zigzag then zigzagRemap val else val) []

/-- `ProtobufSerializer._encode_varints(buf, ints, zigzag)`: asserts the list
is non-empty; writes the single byte `0x00` for `[0]`; otherwise writes the
length as a varint followed by each element, all with the same zig-zag
setting. -/
def encode_varints (ints : List Nat) (zigzag : Bool) : Option (List Nat) :=
  if ints.length > 0 then
    if ints = [0] then
      some [0x00]
    else
      ints.foldl
        (fun acc v => do
          let bs ← acc
          let b ← write_varint (Int.ofNat v) zigzag
          pure (bs ++ b))
        (write_varint (Int.ofNat ints.length) zigzag)
  else
    none

/-- The accumulation loop of `ProtobufDeserializer._decode_varint`: reads
bytes until one without the continuation bit, OR-ing 7-bit groups into
`value`.  `none` models the `EOFError` raised by `_read_byte` on an exhausted
buffer.  Returns the raw (pre-zig-zag) value and the unread rest. -/
def decodeVarintLoop : List Nat → Nat → Nat → Option (Nat × List Nat)
  | [], _, _ => none
  | i :: rest, shift, value =>
    let value' := value ||| ((i &&& 0x7f) <<< shift)
    if i &&& 0x80 ≠ 0 then
      decodeVarintLoop rest (shift + 7) value'
    else
      some (value', rest)

/-- The zig-zag inverse applied by `_decode_varint` when `zigzag=True`:
`value = (value >> 1) ^ -(value & 1)`. -/
def zigzagUnmap (value : Int) : Int := pyXor (pyShr value 1) (-(pyAnd value 1))

/-- `ProtobufDeserializer._decode_varint(buf, zigzag)`: decodes one varint
from the front of the buffer, returning the value and the remaining bytes;
`none` models `EOFError`. -/
def decode_varint (buf : List Nat) (zigzag : Bool) : Option (Int × List Nat) :=
  match decodeVarintLoop buf 0 0 with
  | none => none
  | some (raw, rest) =>
    some ((if zigzag then zigzagUnmap (Int.ofNat raw) else Int.ofNat raw), rest)

/-!
### Type-index resolver (`_create_msg_index`)

Protobuf descriptors form an object graph: a `MessageDescriptor` carries a
pointer to its enclosing type (`containing_type`), the list of its nested
types (`nested_types`), and its file.  The graph is modelled as an arena:
message descriptors are arena indices, and Python's `==` on descriptor
objects (reference comparison here) is equality of arena indices.  The file's
`message_types_by_name` dict iterates its keys, i.e. type names, in
insertion order, modelled as a list of names.
-/

/-- One protobuf `MessageDescriptor`: name, optional enclosing type and
nested types, all identified by arena index. -/
structure MsgNode where
  name : String
  containing : Option Nat
  nested : List Nat
deriving DecidableEq

/-- A protobuf `FileDescriptor` restricted to what `_create_msg_index`
consumes: the keys of `message_types_by_name` in iteration order, and the
arena of message descriptors. -/
structure FileArena where
  messageTypesByName : List String
  arena : List MsgNode
deriving DecidableEq

/-- Arena lookup of a message descriptor. -/
def FileArena.node? (f : FileArena) (i : Nat) : Option MsgNode := f.arena[i]?

/-- The upward `while current.containing_type is not None` walk of
`_create_msg_index`, including the `found` flag exactly as in the source
(set on the first successful level and never reset).  Returns the root
descriptor reached and the accumulated child positions; `Except.error ()`
models `raise ValueError("Nested MessageDescriptor not found")`.  The outer
`none` means the walk was still running when the fuel ran out (or hit a
dangling arena index, impossible in a live Python object graph). -/
def msgIndexWalk (f : FileArena) : Nat → Nat → Bool → List Nat →
    Option (Except Unit (Nat × List Nat))
  | 0, _, _, _ => none
  | fuel + 1, current, found, acc =>
    match f.node? current with
    | none => none
    | some cur =>
      match cur.containing with
      | none => some (Except.ok (current, acc))
      | some parent =>
        match f.node? parent with
        | none => none
        | some parentNode =>
          match parentNode.nested.findIdx? (· = current) with
          | some idx => msgIndexWalk f fuel parent true (idx :: acc)
          | none =>
            if found then msgIndexWalk f fuel parent found acc
            else some (Except.error ())

/-- `_create_msg_index(msg_desc)`: the upward walk followed by locating the
root's position among the file's top-level type names.  `Except.error ()`
models the two `ValueError` raises. -/
def create_msg_index (f : FileArena) (msg : Nat) (fuel : Nat) :
    Option (Except Unit (List Nat)) :=
  match msgIndexWalk f fuel msg false [] with
  | none => none
  | some (Except.error e) => some (Except.error e)
  | some (Except.ok (root, acc)) =>
    match f.node? root with
    | none => none
    | some rootNode =>
      match f.messageTypesByName.findIdx? (· = rootNode.name) with
      | some idx => some (Except.ok (idx :: acc))
      | none => some (Except.error ())

/-- File with a single top-level type `A`. -/
def soloFile : FileArena :=
  { messageTypesByName := ["A"], arena := [⟨"A", none, []⟩] }

/-- File whose first top-level type `T0` contains nested types `N0` and
`Item`; `Item` (arena index 2) is the second nested type. -/
def itemFile : FileArena :=
  { messageTypesByName := ["T0"],
    arena := [⟨"T0", none, [1, 2]⟩, ⟨"N0", some 0, []⟩, ⟨"Item", some 0, []⟩] }

/-- File with two top-level types `A` and `B`. -/
def twoTopFile : FileArena :=
  { messageTypesByName := ["A", "B"],
    arena := [⟨"A", none, []⟩, ⟨"B", none, []⟩] }

/-- Malformed descriptor graph: `C`'s parent `B` does list `C` among its
nested types, but `B`'s own parent `A` does not list `B`, so the
parent/child relationship is broken one level further up the walk. -/
def brokenFile : FileArena :=
  { messageTypesByName := ["A"],
    arena := [⟨"A", none, []⟩, ⟨"B", some 0, [2]⟩, ⟨"C", some 1, []⟩] }

/-!
### Dependency graph resolver and serializer (`ProtobufSerializer`)

A `FileDescriptor`, as consumed by `_resolve_dependencies`, is a finite tree:
its name, its serialized form (`serialized_pb`; the base64 step
`_schema_to_str` is an injective transport encoding from the Python standard
library, out of scope, modelled as the identity on the serialized string) and
its dependency files.  The schema-registry client is an external
collaborator: it is modelled as an oracle of pure functions, and each call
the serializer makes to it is recorded in an explicit call trace. -/

/-- A protobuf `FileDescriptor` as seen by the dependency resolver. -/
inductive FileDesc where
  | mk (name : String) (serializedPb : String) (dependencies : List FileDesc)

/-- `FileDescriptor.name`. -/
def FileDesc.name : FileDesc → String
  | .mk n _ _ => n

/-- `FileDescriptor.serialized_pb`. -/
def FileDesc.serializedPb : FileDesc → String
  | .mk _ pb _ => pb

/-- `FileDescriptor.dependencies`. -/
def FileDesc.dependencies : FileDesc → List FileDesc
  | .mk _ _ deps => deps

/-- `_schema_to_str(proto_file)`: base64 of `serialized_pb`.  Base64 is an
injective encoding from the Python standard library (outside this core), so
it is modelled as the identity on the serialized string. -/
def schema_to_str (pb : String) : String := pb

/-- A `SchemaReference(name, subject, version)` triple. -/
structure SchemaRef where
  name : String
  subject : String
  version : Int
deriving DecidableEq

/-- A `Schema` value as built by this module: base64 schema string plus
reference list (`schema_type` is always `'PROTOBUF'` and is omitted). -/
structure PSchema where
  schemaStr : String
  references : List SchemaRef
deriving DecidableEq

/-- Result of a store lookup / latest-version query. -/
structure RegisteredSchema where
  schema_id : Int
  version : Int
deriving DecidableEq

/-- The external schema-registry client, modelled as an oracle of pure
functions (`register_schema(subject, schema, normalize)` returning the id,
`lookup_schema(subject, schema, normalize)` and
`get_latest_version(subject)`). -/
structure Registry where
  register_schema : String → PSchema → Bool → Int
  lookup_schema : String → PSchema → Bool → RegisteredSchema
  get_latest_version : String → RegisteredSchema

/-- One call issued to the external store, for the observable call trace. -/
inductive StoreCall where
  | register (subject : String)
  | lookup (subject : String)
  | getLatest (subject : String)
deriving DecidableEq

/-- Boolean configuration flags of `ProtobufSerializer` after construction. -/
structure SerFlags where
  auto_register : Bool
  normalize : Bool
  use_latest : Bool
  skip_known : Bool
  use_deprecated : Bool
deriving DecidableEq

/-- Construction-time (immutable) data of a `ProtobufSerializer` instance:
flags, the two subject-naming strategies (pure functions from serialization
context — the topic string — and a name to a subject string), the bound
message class (identified by its qualified class name), the message index
computed once at construction, and the base64 schema string of the bound
type's file. -/
structure SerCfg where
  flags : SerFlags
  subject_name_of : String → String → String
  ref_subject_of : String → String → String
  msg_class : String
  msg_index : List Nat
  schema_str : String

/-- Mutable state of a `ProtobufSerializer` instance: `_known_subjects`,
`_schema_id` and `_schema.references`. -/
structure SerState where
  known_subjects : List String
  schema_id : Option Int
  schema_refs : List SchemaRef
deriving DecidableEq

mutual

/-- `ProtobufSerializer._resolve_dependencies(ctx, file_desc)`: returns the
accumulated `SchemaReference` list together with the trace of store calls
made, in order. -/
def resolve_dependencies (cfg : SerCfg) (reg : Registry) (ctx : String) :
    FileDesc → List SchemaRef × List StoreCall
  | .mk _ _ deps => resolveDepsList cfg reg ctx deps

/-- The `for dep in file_desc.dependencies` loop of
`_resolve_dependencies`. -/
def resolveDepsList (cfg : SerCfg) (reg : Registry) (ctx : String) :
    List FileDesc → List SchemaRef × List StoreCall
  | [] => ([], [])
  | dep :: rest =>
    if cfg.flags.skip_known ∧ dep.name.startsWith "google/protobuf/" then
      resolveDepsList cfg reg ctx rest
    else
      let (depRefs, depCalls) := resolve_dependencies cfg reg ctx dep
      let subject := cfg.ref_subject_of ctx dep.name
      let schema : PSchema := ⟨schema_to_str dep.serializedPb, depRefs⟩
      let registerCalls := if cfg.flags.auto_register then [StoreCall.register subject] else []
      let version := (reg.lookup_schema subject schema false).version
      let (restRefs, restCalls) := resolveDepsList cfg reg ctx rest
      (⟨dep.name, subject, version⟩ :: restRefs,
        depCalls ++ registerCalls ++ [StoreCall.lookup subject] ++ restCalls)

end

/-- Errors surfaced by `ProtobufSerializer.__call__`: the `ValueError` for a
message of the wrong class, the `struct.error` from packing a missing or
out-of-range schema id, and the `AssertionError` guarding
`_encode_varints`. -/
inductive SerErr where
  | typeMismatch
  | packError
  | assertError
deriving DecidableEq

/-- A protobuf message instance: its runtime class, its descriptor's
`full_name`, its file descriptor, and the opaque payload produced by the
external `SerializeToString()`. -/
structure PMessage where
  msg_class : String
  full_name : String
  file : FileDesc
  payload : List Nat

/-- Big-endian 4-byte encoding of a `uint32`, as produced by
`struct.pack('>I', n)`. -/
def beBytes4 (n : Nat) : List Nat :=
  [n / 2 ^ 24 % 256, n / 2 ^ 16 % 256, n / 2 ^ 8 % 256, n % 256]

/-- Modelled from the spec: the magic sentinel constant `_MAGIC_BYTE` is
defined in the package `__init__` (not part of this source file); the spec's
wire-format section and its concrete scenario fix the leading sentinel byte
to `0x00`. -/
def MAGIC_BYTE : Int := 0

/-- `ProtobufSerializer.__call__(message_type, ctx)`.  Returns the result
(`ok none` models Python `None`, `ok (some bytes)` the produced buffer),
the post-call serializer state, and the trace of store calls made. -/
def serializerCall (cfg : SerCfg) (reg : Registry) (st : SerState)
    (message : Option PMessage) (ctx : String) :
    Except SerErr (Option (List Nat)) × SerState × List StoreCall :=
  match message with
  | none => (Except.ok none, st, [])
  | some msg =>
    if msg.msg_class ≠ cfg.msg_class then (Except.error SerErr.typeMismatch, st, [])
    else
      let subject := cfg.subject_name_of ctx msg.full_name
      let (st1, calls) :=
        if subject ∈ st.known_subjects then (st, ([] : List StoreCall))
        else if cfg.flags.use_latest then
          let latest := reg.get_latest_version subject
          ({ st with schema_id := some latest.schema_id,
                     known_subjects := st.known_subjects ++ [subject] },
            [StoreCall.getLatest subject])
        else
          let (refs, depCalls) := resolve_dependencies cfg reg ctx msg.file
          let schema : PSchema := ⟨cfg.schema_str, refs⟩
          if cfg.flags.auto_register then
            let sid := reg.register_schema subject schema cfg.flags.normalize
            ({ known_subjects := st.known_subjects ++ [subject],
               schema_id := some sid, schema_refs := refs },
              depCalls ++ [StoreCall.register subject])
          else
            let looked := reg.lookup_schema subject schema cfg.flags.normalize
            ({ known_subjects := st.known_subjects ++ [subject],
               schema_id := some looked.schema_id, schema_refs := refs },
              depCalls ++ [StoreCall.lookup subject])
      match st1.schema_id with
      | none => (Except.error SerErr.packError, st1, calls)
      | some sid =>
        if sid < 0 ∨ 2 ^ 32 ≤ sid then (Except.error SerErr.packError, st1, calls)
        else
          match encode_varints cfg.msg_index (!cfg.flags.use_deprecated) with
          | none => (Except.error SerErr.assertError, st1, calls)
          | some idxBytes =>
            (Except.ok (some (MAGIC_BYTE.toNat :: (beBytes4 sid.toNat ++ idxBytes ++ msg.payload))),
              st1, calls)

/-!
### Deserializer (`ProtobufDeserializer`)
-/

/-- Errors surfaced by the deserialize path, in the order they can arise:
`TooShort` (input below 6 bytes), `BadMagicByte`, `InvalidFormat` (the
`DecodeError` on a bad index-array length), `UnexpectedEndOfInput` (the
`EOFError` from `_read_byte`), and `DecodeFailure` (payload decoding). -/
inductive DeserErr where
  | tooShort
  | badMagic
  | invalidFormat
  | endOfInput
  | decodeFailure
deriving DecidableEq

/-- The `for _ in range(size)` loop of `_decode_index`: reads `n` varints,
appending each to the accumulator. -/
def readVarints (zigzag : Bool) : Nat → List Nat → List Int →
    Except DeserErr (List Int × List Nat)
  | 0, buf, acc => Except.ok (acc, buf)
  | n + 1, buf, acc =>
    match decode_varint buf zigzag with
    | none => Except.error DeserErr.endOfInput
    | some (v, rest) => readVarints zigzag n rest (acc ++ [v])

/-- `ProtobufDeserializer._decode_index(buf, zigzag)`: reads the size varint,
rejects a size below 0 or above 100000, maps size 0 to the reserved `[0]`,
and otherwise reads `size` further varints.  Returns the index list and the
remaining bytes. -/
def decode_index (buf : List Nat) (zigzag : Bool) :
    Except DeserErr (List Int × List Nat) :=
  match decode_varint buf zigzag with
  | none => Except.error DeserErr.endOfInput
  | some (size, rest) =>
    if size < 0 ∨ 100000 < size then Except.error DeserErr.invalidFormat
    else if size = 0 then Except.ok ([0], rest)
    else readVarints zigzag size.toNat rest []

/-- `struct.unpack('>b', ...)`: a byte read back as a signed value. -/
def toSignedByte (b : Nat) : Int := if b < 128 then (b : Int) else (b : Int) - 256

/-- `struct.unpack('>I', ...)` of four bytes: big-endian unsigned value. -/
def beValue4 (bs : List Nat) : Nat :=
  match bs with
  | [a, b, c, d] => ((a * 256 + b) * 256 + c) * 256 + d
  | _ => 0

/-- Configuration data of a `ProtobufDeserializer` after construction. -/
structure DeserCfg where
  use_deprecated : Bool
deriving DecidableEq

/-- `ProtobufDeserializer.__call__(value, ctx)`.  `ok none` models the Python
`None` passthrough; on success the decoded message is modelled by the raw
payload bytes handed to the external `ParseFromString` collaborator. -/
def deserializerCall (cfg : DeserCfg) (value : Option (List Nat)) :
    Except DeserErr (Option (List Nat)) :=
  match value with
  | none => Except.ok none
  | some v =>
    if v.length < 6 then Except.error DeserErr.tooShort
    else
      let magic := toSignedByte (v.headD 0)
      if magic ≠ MAGIC_BYTE then Except.error DeserErr.badMagic
      else
        match decode_index (v.drop 5) (!cfg.use_deprecated) with
        | Except.error e => Except.error e
        | Except.ok (_, rest) => Except.ok (some rest)

/-!
### Construction-time configuration validation

A Python configuration dict maps option names to values; for validation only
the value's type class matters: a boolean, a callable, or anything else.
`RuntimeError` (missing mandatory flag) and the `ValueError`s are all
construction-time fatal errors; the spec groups them as
`ConfigurationError`. -/

/-- The type class of a configuration value. -/
inductive ConfVal where
  | boolean (b : Bool)
  | callableVal
  | otherVal
deriving DecidableEq

/-- A configuration dict: association of option names to values (first
binding wins, as a dict has unique keys). -/
def Conf := List (String × ConfVal)

/-- Dict lookup. -/
def confGet (c : Conf) (k : String) : Option ConfVal :=
  (c.find? (fun p => p.1 = k)).map (fun p => p.2)

/-- The serializer's `_default_conf`. -/
def serializerDefault (k : String) : ConfVal :=
  if k = "auto.register.schemas" then ConfVal.boolean true
  else if k = "normalize.schemas" then ConfVal.boolean false
  else if k = "use.latest.version" then ConfVal.boolean false
  else if k = "skip.known.types" then ConfVal.boolean false
  else if k = "subject.name.strategy" then ConfVal.callableVal
  else if k = "reference.subject.name.strategy" then ConfVal.callableVal
  else if k = "use.deprecated.format" then ConfVal.boolean false
  else ConfVal.otherVal

/-- The value popped from `conf_copy = defaults.copy(); conf_copy.update(conf)`
for a recognized key. -/
def mergedVal (c : Conf) (k : String) : ConfVal :=
  (confGet c k).getD (serializerDefault k)

/-- The recognized serializer option names. -/
def serializerKeys : List String :=
  ["auto.register.schemas", "normalize.schemas", "use.latest.version",
    "skip.known.types", "subject.name.strategy",
    "reference.subject.name.strategy", "use.deprecated.format"]

/-- The construction-time error classes (the spec's `ConfigurationError`):
the `RuntimeError` for the missing mandatory flag and the `ValueError`s for a
wrong-typed option, the auto-register/use-latest conflict, and leftover
unrecognized options. -/
inductive ConfigError where
  | missingFlag
  | wrongType (k : String)
  | conflict
  | unrecognized
deriving DecidableEq

/-- `ProtobufSerializer.__init__` configuration handling, checks in source
order: missing `use.deprecated.format`; then per-option pops with type
checks (`auto.register.schemas`, `normalize.schemas`, `use.latest.version`
with the conflict check, `skip.known.types`, `use.deprecated.format`, the
two strategy callables); finally the leftover-keys check. -/
def serializerInit (conf : Option Conf) : Except ConfigError SerFlags :=
  match conf with
  | none => Except.error ConfigError.missingFlag
  | some c =>
    if (confGet c "use.deprecated.format").isNone then
      Except.error ConfigError.missingFlag
    else
      match mergedVal c "auto.register.schemas" with
      | ConfVal.boolean autoReg =>
        match mergedVal c "normalize.schemas" with
        | ConfVal.boolean norm =>
          match mergedVal c "use.latest.version" with
          | ConfVal.boolean latest =>
            if latest && autoReg then Except.error ConfigError.conflict
            else
              match mergedVal c "skip.known.types" with
              | ConfVal.boolean skip =>
                match mergedVal c "use.deprecated.format" with
                | ConfVal.boolean dep =>
                  match mergedVal c "subject.name.strategy" with
                  | ConfVal.callableVal =>
                    match mergedVal c "reference.subject.name.strategy" with
                    | ConfVal.callableVal =>
                      if c.any (fun p => ¬ p.1 ∈ serializerKeys) then
                        Except.error ConfigError.unrecognized
                      else Except.ok ⟨autoReg, norm, latest, skip, dep⟩
                    | _ => Except.error (ConfigError.wrongType "reference.subject.name.strategy")
                  | _ => Except.error (ConfigError.wrongType "subject.name.strategy")
                | _ => Except.error (ConfigError.wrongType "use.deprecated.format")
              | _ => Except.error (ConfigError.wrongType "skip.known.types")
          | _ => Except.error (ConfigError.wrongType "use.latest.version")
        | _ => Except.error (ConfigError.wrongType "normalize.schemas")
      | _ => Except.error (ConfigError.wrongType "auto.register.schemas")

/-- `ProtobufDeserializer.__init__` configuration handling: the missing-flag
check and the boolean type check on `use.deprecated.format` only — there is
no leftover-keys check in the deserializer, so unrecognized options are
silently ignored. -/
def deserializerInit (conf : Option Conf) : Except ConfigError DeserCfg :=
  match conf with
  | none => Except.error ConfigError.missingFlag
  | some c =>
    if (confGet c "use.deprecated.format").isNone then
      Except.error ConfigError.missingFlag
    else
      match mergedVal c "use.deprecated.format" with
      | ConfVal.boolean dep => Except.ok ⟨dep⟩
      | _ => Except.error (ConfigError.wrongType "use.deprecated.format")

/-!
### Concrete fixtures used by witnesses and counterexamples
-/

/-- Malformed descriptor graph failing at the first level of the walk: `C`'s
declared parent `B` does not list `C` among its nested types. -/
def brokenFirstLevelFile : FileArena :=
  { messageTypesByName := ["A"],
    arena := [⟨"A", none, [1]⟩, ⟨"B", some 0, []⟩, ⟨"C", some 1, []⟩] }

/-- A store oracle with distinguishable results per subject. -/
def regSc : Registry :=
  { register_schema := fun _ _ _ => 7,
    lookup_schema := fun subject _ _ =>
      if subject = "a" then ⟨101, 1⟩ else ⟨202, 2⟩,
    get_latest_version := fun _ => ⟨9, 9⟩ }

/-- A serializer configuration in lookup-only mode (`auto.register.schemas`
and `use.latest.version` both off), record-name subject strategy, bound to
class `M` with message index `[0]`. -/
def cfgSc : SerCfg :=
  { flags := ⟨false, false, false, false, false⟩,
    subject_name_of := fun _ n => n,
    ref_subject_of := fun _ n => n,
    msg_class := "M", msg_index := [0], schema_str := "pb" }

/-- A message of type `a` (subject `a` under `cfgSc`). -/
def msgA : PMessage := ⟨"M", "a", FileDesc.mk "f" "pb" [], [0xAA]⟩

/-- A message of type `b` (subject `b` under `cfgSc`). -/
def msgB : PMessage := ⟨"M", "b", FileDesc.mk "f" "pb" [], [0xBB]⟩

/-- Fresh serializer state, as after construction. -/
def st0 : SerState := ⟨[], none, []⟩

/-- State after first serializing `msgA` (first use of subject `a`). -/
def st1 : SerState := (serializerCall cfgSc regSc st0 (some msgA) "t").2.1

/-- State after then serializing `msgB` (first use of subject `b`). -/
def st2 : SerState := (serializerCall cfgSc regSc st1 (some msgB) "t").2.1

/-- A configuration value of boolean type (`isinstance(v, bool)`). -/
def isBooleanVal : ConfVal → Prop
  | ConfVal.boolean _ => True
  | _ => False

/-- A configuration value that is callable (`callable(v)`). -/
def isCallableVal : ConfVal → Prop
  | ConfVal.callableVal => True
  | _ => False

/-- Some recognized serializer option (after merging defaults) carries a
value of the wrong type: a non-boolean for one of the five boolean options
or a non-callable for one of the two strategy options. -/
def serWrongType (c : Conf) : Prop :=
  ¬ isBooleanVal (mergedVal c "auto.register.schemas") ∨
  ¬ isBooleanVal (mergedVal c "normalize.schemas") ∨
  ¬ isBooleanVal (mergedVal c "use.latest.version") ∨
  ¬ isBooleanVal (mergedVal c "skip.known.types") ∨
  ¬ isBooleanVal (mergedVal c "use.deprecated.format") ∨
  ¬ isCallableVal (mergedVal c "subject.name.strategy") ∨
  ¬ isCallableVal (mergedVal c "reference.subject.name.strategy")

/-- Auto-registration and use-latest-version both enabled. -/
def serConflict (c : Conf) : Prop :=
  mergedVal c "use.latest.version" = ConfVal.boolean true ∧
  mergedVal c "auto.register.schemas" = ConfVal.boolean true

/-- The configuration mentions an option name the serializer does not
recognize. -/
def serUnrecognized (c : Conf) : Prop :=
  c.any (fun p => ¬ p.1 ∈ serializerKeys)

/-- The deserializer's only type check: `use.deprecated.format` (after
merging its default) must be a boolean. -/
def deserWrongType (c : Conf) : Prop :=
  ¬ isBooleanVal (mergedVal c "use.deprecated.format")

/-!
## Claim theorems
-/

/-- C1 counterexample: with zig-zag enabled, encoding the index `[0, 1]` does
not produce the bytes `0x02 0x00 0x02` claimed by the spec, because
`_encode_varints` passes `zigzag=zigzag` to `_write_varint` for the length
prefix as well, so the length 2 is emitted as its zig-zag image `0x04`. -/
theorem C1_counterexample :
    encode_varints [0, 1] true ≠ some [0x02, 0x00, 0x02] := by decide

/-- C1 (amended): for a message type whose computed index is `[0, 1]` (such
as the second nested type of the first top-level type, here `Item` in
`itemFile`), encoding the index sequence with zig-zag enabled produces
exactly the three bytes `0x04 0x00 0x02`: the length prefix 2 is itself
zig-zag encoded (`zigzag(2) = 4`), then `zigzag(0) = 0x00` and
`zigzag(1) = 0x02`. -/
theorem C1_item_index_encoding :
    create_msg_index itemFile 2 2 = some (Except.ok [0, 1]) ∧
    encode_varints [0, 1] true = some [0x04, 0x00, 0x02] :=
  ⟨rfl, by decide⟩

/-- C5: the `found` flag of `_create_msg_index` is initialised once before
the upward `while` loop and never reset inside it, so only a failure at the
*first* level of the walk raises; a parent/child relationship that is broken
one level further up is skipped silently, producing a partial index.  In
`brokenFile`, `C`'s parent `B` lists `C` (level 1 succeeds, `found` becomes
and stays true) but `A` does not list `B`; the code returns the partial index
`[0, 0]` instead of raising.  A first-level failure (`brokenFirstLevelFile`)
and a missing root name do raise. -/
theorem C5_found_flag_not_reset :
    create_msg_index brokenFile 2 3 = some (Except.ok [0, 0]) ∧
    create_msg_index brokenFirstLevelFile 2 3 = some (Except.error ()) :=
  ⟨rfl, rfl⟩

/-- C3 counterexample: `create_msg_index` returns `[0]` for the first of
*two* top-level types; the claimed "iff `t` is the only top-level type" is
too strong — only "no enclosing type and first position" is required. -/
theorem C3_counterexample :
    create_msg_index twoTopFile 0 1 = some (Except.ok [0]) ∧
    twoTopFile.messageTypesByName.length ≠ 1 ∧
    twoTopFile.node? 1 = some ⟨"B", none, []⟩ :=
  ⟨rfl, by decide, rfl⟩

/-- Helper: a successful upward walk only ever prepends to the accumulator,
so the initial accumulator is a suffix of the result. -/
theorem msgIndexWalk_extends (f : FileArena) :
    ∀ fuel cur found acc root acc',
      msgIndexWalk f fuel cur found acc = some (Except.ok (root, acc')) →
      ∃ pre, acc' = pre ++ acc := by
  intro fuel
  induction fuel with
  | zero =>
    intro cur found acc root acc' h
    simp [msgIndexWalk] at h
  | succ n ih =>
    intro cur found acc root acc' h
    simp only [msgIndexWalk] at h
    split at h
    · exact absurd h (by simp)
    · split at h
      · simp only [Option.some.injEq, Except.ok.injEq, Prod.mk.injEq] at h
        exact ⟨[], by simp [h.2]⟩
      · split at h
        · exact absurd h (by simp)
        · split at h
          · rename_i idx heq
            obtain ⟨pre, hp⟩ := ih _ _ _ _ _ h
            exact ⟨pre ++ [idx], by simp [hp]⟩
          · split at h
            · exact ih _ _ _ _ _ h
            · exact absurd h (by simp)

/-- Helper: a successful walk that starts with `found = False` either starts
at a type with no enclosing type (and then contributes nothing), or at a
nested type (and then the first, still-checked level appends at least one
position). -/
theorem msgIndexWalk_start (f : FileArena) (fuel cur : Nat) (acc : List Nat)
    (root : Nat) (acc' : List Nat)
    (h : msgIndexWalk f fuel cur false acc = some (Except.ok (root, acc'))) :
    ∃ node, f.node? cur = some node ∧
      ((node.containing = none ∧ root = cur ∧ acc' = acc) ∨
        (node.containing ≠ none ∧ acc.length < acc'.length)) := by
  cases fuel with
  | zero => simp [msgIndexWalk] at h
  | succ n =>
    simp only [msgIndexWalk] at h
    split at h
    · exact absurd h (by simp)
    · rename_i node hnode
      refine ⟨node, hnode, ?_⟩
      split at h
      · rename_i hcont
        simp only [Option.some.injEq, Except.ok.injEq, Prod.mk.injEq] at h
        exact Or.inl ⟨hcont, h.1.symm, h.2.symm⟩
      · rename_i parent hcont
        refine Or.inr ⟨by simp [hcont], ?_⟩
        split at h
        · exact absurd h (by simp)
        · split at h
          · obtain ⟨pre, hp⟩ := msgIndexWalk_extends f _ _ _ _ _ _ h
            simp [hp]; omega
          · simp at h

/-- Helper: `findIdx?` returns index 0 exactly when the list's first element
satisfies the test. -/
theorem findIdx?_zero_iff_head (l : List String) (nm : String) :
    l.findIdx? (· = nm) = some 0 ↔ l.head? = some nm := by
  cases l with
  | nil => simp [List.findIdx?]
  | cons a t =>
    rw [List.findIdx?_cons]
    by_cases h : a = nm <;> simp [h]

/-- C3 (amended): `create_msg_index` returns `[0]` iff the target type has no
enclosing type and its name is the *first* of the file's top-level type names
(in particular, when it is the sole top-level type); encoding `[0]` writes
exactly the single byte `0x00`; decoding a size of 0 returns `[0]`. -/
theorem C3_reserved_shorthand :
    (∀ (f : FileArena) (msg fuel : Nat) (r : List Nat),
      create_msg_index f msg fuel = some (Except.ok r) →
      (r = [0] ↔ ∃ node, f.node? msg = some node ∧ node.containing = none ∧
        f.messageTypesByName.head? = some node.name)) ∧
    (∀ z : Bool, encode_varints [0] z = some [0x00]) ∧
    (∀ (buf : List Nat) (z : Bool) (rest : List Nat),
      decode_varint buf z = some (0, rest) → decode_index buf z = Except.ok ([0], rest)) := by
  refine ⟨?_, ?_, ?_⟩
  · intro f msg fuel r h
    simp only [create_msg_index] at h
    split at h
    · exact absurd h (by simp)
    · exact absurd h (by simp)
    · rename_i root acc hwalk
      split at h
      · exact absurd h (by simp)
      · rename_i rootNode hroot
        split at h
        · rename_i idx hidx
          simp only [Option.some.injEq, Except.ok.injEq] at h
          obtain ⟨node, hnode, hcase⟩ := msgIndexWalk_start f fuel msg [] root acc hwalk
          constructor
          · intro h0
            rw [h0] at h
            have hidx0 : idx = 0 ∧ acc = [] := by
              cases h; exact ⟨rfl, rfl⟩
            rcases hcase with ⟨hc, hrooteq, hacc⟩ | ⟨hc, hlen⟩
            · refine ⟨node, hnode, hc, ?_⟩
              have : rootNode = node := by
                rw [hrooteq] at hroot
                rw [hroot] at hnode
                exact (Option.some.injEq _ _ ▸ hnode).symm ▸ rfl
              have hfind : f.messageTypesByName.findIdx? (· = rootNode.name) = some 0 := by
                rw [hidx, hidx0.1]
              rw [this] at hfind
              exact (findIdx?_zero_iff_head _ _).mp hfind
            · rw [hidx0.2] at hlen
              simp at hlen
          · rintro ⟨node', hnode', hcont', hhead'⟩
            have hsame : node = node' := by
              rw [hnode] at hnode'
              exact Option.some.inj hnode'
            rcases hcase with ⟨hc, hrooteq, hacc⟩ | ⟨hc, hlen⟩
            · have hrn : rootNode = node := by
                rw [hrooteq] at hroot
                rw [hroot] at hnode
                exact Option.some.inj hnode
              have : f.messageTypesByName.findIdx? (· = rootNode.name) = some 0 := by
                apply (findIdx?_zero_iff_head _ _).mpr
                rw [hrn, hsame]
                exact hhead'
              rw [hidx] at this
              have hidx0 : idx = 0 := by
                exact Option.some.inj this
              rw [← h, hidx0, hacc]
            · exact absurd (hsame ▸ hcont') hc
        · exact absurd h (by simp)
  · intro z; cases z <;> decide
  · intro buf z rest h
    simp only [decode_index, h]
    norm_num

/-- C3 witness: the sole-top-level-type file `soloFile` instantiates the iff
(its computed index is `[0]`), and the concrete encode/decode shorthands. -/
theorem C3_witness :
    ([0] = [(0 : Nat)] ↔ ∃ node, soloFile.node? 0 = some node ∧ node.containing = none ∧
      soloFile.messageTypesByName.head? = some node.name) ∧
    encode_varints [0] true = some [0x00] ∧
    decode_index [0x00, 9] true = Except.ok ([0], [9]) :=
  ⟨C3_reserved_shorthand.1 soloFile 0 1 [0] rfl, C3_reserved_shorthand.2.1 true,
    C3_reserved_shorthand.2.2 [0x00, 9] true [9] rfl⟩

/-- C7: on the deserialize path, an input shorter than 6 bytes fails with
`TooShort`; an input whose first byte is not the magic sentinel fails with
`BadMagicByte`; and a decoded index-sequence size that is negative or greater
than 100000 fails with `InvalidFormat`.  In each case the result is an error,
so no object is produced. -/
theorem C7_deserialize_rejections :
    ∀ (cfg : DeserCfg) (v : List Nat),
      (v.length < 6 → deserializerCall cfg (some v) = Except.error DeserErr.tooShort) ∧
      (6 ≤ v.length → toSignedByte (v.headD 0) ≠ MAGIC_BYTE →
        deserializerCall cfg (some v) = Except.error DeserErr.badMagic) ∧
      (∀ s rest, 6 ≤ v.length → toSignedByte (v.headD 0) = MAGIC_BYTE →
        decode_varint (v.drop 5) (!cfg.use_deprecated) = some (s, rest) →
        (s < 0 ∨ 100000 < s) →
        deserializerCall cfg (some v) = Except.error DeserErr.invalidFormat) := by
  intro cfg v
  refine ⟨?_, ?_, ?_⟩
  · intro hlen
    simp [deserializerCall, hlen]
  · intro hlen hmag
    rw [deserializerCall]
    rw [if_neg (by omega), if_pos hmag]
  · intro s rest hlen hmag hdec hbad
    rw [deserializerCall]
    rw [if_neg (by omega), if_neg (by simpa using hmag)]
    simp only [decode_index, hdec, if_pos hbad]

/-- C7 witness: the three rejections at concrete inputs — the empty input,
a 6-byte input with leading byte 1, and a 6-byte input whose index-size
varint decodes (zig-zag) to -1. -/
theorem C7_witness :
    deserializerCall ⟨false⟩ (some []) = Except.error DeserErr.tooShort ∧
    deserializerCall ⟨false⟩ (some [1, 0, 0, 0, 7, 0]) = Except.error DeserErr.badMagic ∧
    deserializerCall ⟨false⟩ (some [0, 0, 0, 0, 7, 1]) = Except.error DeserErr.invalidFormat :=
  ⟨(C7_deserialize_rejections ⟨false⟩ []).1 (by decide),
    (C7_deserialize_rejections ⟨false⟩ [1, 0, 0, 0, 7, 0]).2.1 (by decide) (by decide),
    (C7_deserialize_rejections ⟨false⟩ [0, 0, 0, 0, 7, 1]).2.2 (-1) [] (by decide) (by decide)
      (by decide) (by decide)⟩

/-- C2 counterexample: `_resolve_dependencies` appends exactly one
`SchemaReference` per *direct* dependency of the file (the recursive result
`dep_refs` goes into the dependency's own registered schema, not into the
parent's returned list), so for A with dependencies [B, C] and B depending on
[D] the returned list names `[B, C]`, not the claimed `[D, B, C]`. -/
theorem C2_counterexample :
    ((resolve_dependencies cfgSc regSc "t"
        (FileDesc.mk "A" "pa" [FileDesc.mk "B" "pb" [FileDesc.mk "D" "pd" []],
          FileDesc.mk "C" "pc" []])).1.map SchemaRef.name) ≠ ["D", "B", "C"] := by decide

/-- C2 (amended): for file A with declared dependencies [B, C] where B
depends on [D] (C, D leaves) and well-known-type skipping off, the resolver
returns references for A's direct dependencies `[B, C]` in declared order;
the reference to D is attached to B's registered schema (the descriptor
passed to B's lookup call), and the store is visited depth-first: D's calls
strictly before B's, then C's. -/
theorem C2_direct_refs_depth_first :
    ∀ (cfg : SerCfg) (reg : Registry) (ctx nA nB nC nD pA pB pC pD : String),
      cfg.flags.skip_known = false →
      (resolve_dependencies cfg reg ctx
          (FileDesc.mk nA pA
            [FileDesc.mk nB pB [FileDesc.mk nD pD []], FileDesc.mk nC pC []])) =
        ([⟨nB, cfg.ref_subject_of ctx nB,
            (reg.lookup_schema (cfg.ref_subject_of ctx nB)
              ⟨schema_to_str pB,
                [⟨nD, cfg.ref_subject_of ctx nD,
                  (reg.lookup_schema (cfg.ref_subject_of ctx nD)
                    ⟨schema_to_str pD, []⟩ false).version⟩]⟩ false).version⟩,
          ⟨nC, cfg.ref_subject_of ctx nC,
            (reg.lookup_schema (cfg.ref_subject_of ctx nC)
              ⟨schema_to_str pC, []⟩ false).version⟩],
        ((if cfg.flags.auto_register then [StoreCall.register (cfg.ref_subject_of ctx nD)]
            else []) ++ [StoreCall.lookup (cfg.ref_subject_of ctx nD)]) ++
        ((if cfg.flags.auto_register then [StoreCall.register (cfg.ref_subject_of ctx nB)]
            else []) ++ [StoreCall.lookup (cfg.ref_subject_of ctx nB)]) ++
        ((if cfg.flags.auto_register then [StoreCall.register (cfg.ref_subject_of ctx nC)]
            else []) ++ [StoreCall.lookup (cfg.ref_subject_of ctx nC)])) := by
  intro cfg reg ctx nA nB nC nD pA pB pC pD hskip
  simp only [resolve_dependencies, resolveDepsList, hskip]
  cases h : cfg.flags.auto_register <;>
    simp [FileDesc.name, FileDesc.serializedPb, h]

/-- C2 witness: the concrete four-file instance under `cfgSc` (whose
`skip.known.types` is off) and the oracle store `regSc`. -/
theorem C2_witness :
    cfgSc.flags.skip_known = false ∧
    (resolve_dependencies cfgSc regSc "t"
        (FileDesc.mk "A" "pa" [FileDesc.mk "B" "pb" [FileDesc.mk "D" "pd" []],
          FileDesc.mk "C" "pc" []])) =
      ([⟨"B", "B", 2⟩, ⟨"C", "C", 2⟩],
        [StoreCall.lookup "D", StoreCall.lookup "B", StoreCall.lookup "C"]) :=
  ⟨rfl, by
    have h := C2_direct_refs_depth_first cfgSc regSc "t" "A" "B" "C" "D" "pa" "pb" "pc" "pd" rfl
    simpa using h⟩

/-- C8: if the subject computed for the message is already in
`_known_subjects`, the serialize call issues no store call at all and leaves
the serializer state untouched; and (second conjunct) any serialize call for
a message of the bound class leaves the subject in `_known_subjects`
afterwards, so store calls can only happen on the first use of a subject per
instance. -/
theorem C8_known_subject_no_store_calls :
    ∀ (cfg : SerCfg) (reg : Registry) (st : SerState) (msg : PMessage) (ctx : String),
      (cfg.subject_name_of ctx msg.full_name ∈ st.known_subjects →
        (serializerCall cfg reg st (some msg) ctx).2 = (st, [])) ∧
      (msg.msg_class = cfg.msg_class →
        cfg.subject_name_of ctx msg.full_name ∈
          (serializerCall cfg reg st (some msg) ctx).2.1.known_subjects) := by
  intro cfg reg st msg ctx
  constructor
  · intro hmem
    simp only [serializerCall]
    rw [if_pos hmem]
    split
    · rfl
    · split
      · rfl
      · split
        · rfl
        · split
          · rfl
          · rfl
  · intro hcls
    simp only [serializerCall]
    rw [if_neg (by simp [hcls])]
    by_cases hmem : cfg.subject_name_of ctx msg.full_name ∈ st.known_subjects
    · rw [if_pos hmem]
      split <;> try split
      all_goals (try split)
      all_goals exact hmem
    · rw [if_neg hmem]
      cases hl : cfg.flags.use_latest <;> cases ha : cfg.flags.auto_register <;>
        simp only [hl, ha, Bool.false_eq_true, if_false, if_true] <;>
        (split <;> try split) <;>
        simp [List.mem_append]

/-- C8 witness: under the two-subject scenario state `st2` (subjects `a` and
`b` both known), serializing `msgA` again issues no store call and leaves the
state unchanged, and the subject stays cached. -/
theorem C8_witness :
    (serializerCall cfgSc regSc st2 (some msgA) "t").2 = (st2, []) ∧
    "a" ∈ (serializerCall cfgSc regSc st2 (some msgA) "t").2.1.known_subjects :=
  ⟨(C8_known_subject_no_store_calls cfgSc regSc st2 msgA "t").1
      (by have h : st2.known_subjects = ["a", "b"] := rfl
          rw [h]
          exact List.mem_cons_self _ _),
    (C8_known_subject_no_store_calls cfgSc regSc st2 msgA "t").2 rfl⟩

/-- C9: serializing the `None` sentinel produces no bytes and no error (and
no state change or store call), deserializing `None` produces no object and
no error, and these are the only inputs for which either operation finishes
without output: a serialize or deserialize call on an actual value either
errors or produces a value. -/
theorem C9_none_sentinel_only :
    ∀ (cfg : SerCfg) (reg : Registry) (st : SerState) (ctx : String) (dcfg : DeserCfg),
      serializerCall cfg reg st none ctx = (Except.ok none, st, []) ∧
      deserializerCall dcfg none = Except.ok none ∧
      (∀ msg, (serializerCall cfg reg st (some msg) ctx).1 ≠ Except.ok none) ∧
      (∀ v, deserializerCall dcfg (some v) ≠ Except.ok none) := by
  intro cfg reg st ctx dcfg
  refine ⟨rfl, rfl, ?_, ?_⟩
  · intro msg
    simp only [serializerCall]
    split
    · simp
    · split
      · simp
      · split
        · simp
        · split
          · simp
          · simp
  · intro v
    simp only [deserializerCall]
    split
    · simp
    · split
      · simp
      · split
        · simp
        · simp

/-- C10: `_schema_id` is a single instance-wide mutable field.  For any
serialize call whose subject is already cached, the envelope is built from
the *current* value of that field — whatever subject's first-use resolution
set it last — not from an identifier associated with the call's own
subject. -/
theorem C10_shared_schema_id_field :
    ∀ (cfg : SerCfg) (reg : Registry) (st : SerState) (msg : PMessage) (ctx : String)
      (sid : Int) (idxBytes : List Nat),
      cfg.subject_name_of ctx msg.full_name ∈ st.known_subjects →
      msg.msg_class = cfg.msg_class →
      st.schema_id = some sid →
      ¬(sid < 0 ∨ 2 ^ 32 ≤ sid) →
      encode_varints cfg.msg_index (!cfg.flags.use_deprecated) = some idxBytes →
      (serializerCall cfg reg st (some msg) ctx).1 =
        Except.ok (some (MAGIC_BYTE.toNat :: (beBytes4 sid.toNat ++ idxBytes ++ msg.payload))) := by
  intro cfg reg st msg ctx sid idxBytes hmem hcls hsid hrange hidx
  simp only [serializerCall]
  rw [if_neg (by simp [hcls]), if_pos hmem]
  simp only [hsid, hidx]
  rw [if_neg hrange]

/-- C10 witness: serialize `msgA` (subject `a`, id 101), then `msgB` (subject
`b`, id 202), then `msgA` again: the third call finds `a` cached and stamps
the envelope with 202 — the identifier obtained for the *other* subject
`b`. -/
theorem C10_witness :
    "a" ∈ st2.known_subjects ∧ st2.schema_id = some 202 ∧
    (serializerCall cfgSc regSc st2 (some msgA) "t").1 =
      Except.ok (some (0x00 :: (beBytes4 202 ++ [0x00] ++ [0xAA]))) :=
  ⟨by
      have h : st2.known_subjects = ["a", "b"] := rfl
      rw [h]
      exact List.mem_cons_self _ _,
    rfl,
    C10_shared_schema_id_field cfgSc regSc st2 msgA "t" 202 [0x00]
      (by
        have h : st2.known_subjects = ["a", "b"] := rfl
        rw [h]
        exact List.mem_cons_self _ _)
      rfl rfl (by decide) (by decide)⟩

/-- Helper: a successful serializer construction implies the flag is present,
all option types are right, there is no auto-register/use-latest conflict and
no unrecognized option. -/
theorem serializerInit_ok_good (c : Conf) (fl : SerFlags)
    (h : serializerInit (some c) = Except.ok fl) :
    (confGet c "use.deprecated.format").isSome ∧
    ¬ serWrongType c ∧ ¬ serConflict c ∧ ¬ serUnrecognized c := by
  simp only [serializerInit] at h
  split at h
  · simp at h
  · rename_i hpres
    split at h
    case h_2 => simp at h
    rename_i autoV hauto
    split at h
    case h_2 => simp at h
    rename_i normV hnorm
    split at h
    case h_2 => simp at h
    rename_i latestV hlatest
    split at h
    · simp at h
    · rename_i hconf
      split at h
      case h_2 => simp at h
      rename_i skipV hskip
      split at h
      case h_2 => simp at h
      rename_i depV hdep
      split at h
      case h_2 => simp at h
      rename_i hsub
      split at h
      case h_2 => simp at h
      rename_i href
      split at h
      · simp at h
      · rename_i hunrec
        refine ⟨Option.isSome_iff_ne_none.mpr (by simpa using hpres), ?_, ?_, ?_⟩
        · simp [serWrongType, hauto, hnorm, hlatest, hskip, hdep, hsub, href, isBooleanVal,
            isCallableVal]
        · rintro ⟨h1, h2⟩
          rw [hlatest] at h1
          rw [hauto] at h2
          cases h1; cases h2
          simp at hconf
        · simpa [serUnrecognized] using hunrec

/-- Helper: characterization of boolean-typed configuration values. -/
theorem isBooleanVal_iff (v : ConfVal) : isBooleanVal v ↔ ∃ b, v = ConfVal.boolean b := by
  cases v <;> simp [isBooleanVal]

/-- Helper: characterization of callable configuration values. -/
theorem isCallableVal_iff (v : ConfVal) : isCallableVal v ↔ v = ConfVal.callableVal := by
  cases v <;> simp [isCallableVal]

/-- Helper: a well-typed, conflict-free, fully recognized configuration with
the mandatory flag present constructs a serializer. -/
theorem serializerInit_good_ok (c : Conf)
    (hpres : (confGet c "use.deprecated.format").isSome)
    (hw : ¬ serWrongType c) (hcf : ¬ serConflict c) (hun : ¬ serUnrecognized c) :
    ∃ fl, serializerInit (some c) = Except.ok fl := by
  simp only [serWrongType, not_or, not_not] at hw
  obtain ⟨w1, w2, w3, w4, w5, w6, w7⟩ := hw
  obtain ⟨b1, hv1⟩ := (isBooleanVal_iff _).mp w1
  obtain ⟨b2, hv2⟩ := (isBooleanVal_iff _).mp w2
  obtain ⟨b3, hv3⟩ := (isBooleanVal_iff _).mp w3
  obtain ⟨b4, hv4⟩ := (isBooleanVal_iff _).mp w4
  obtain ⟨b5, hv5⟩ := (isBooleanVal_iff _).mp w5
  have hv6 := (isCallableVal_iff _).mp w6
  have hv7 := (isCallableVal_iff _).mp w7
  obtain ⟨u, hu⟩ := Option.isSome_iff_exists.mp hpres
  have hba : ¬ ((b3 && b1) = true) := by
    intro hb
    exact hcf ⟨by simp at hb; rw [hv3, hb.1], by simp at hb; rw [hv1, hb.2]⟩
  refine ⟨⟨b1, b2, b3, b4, b5⟩, ?_⟩
  simp only [serializerInit, hu, hv1, hv2, hv3, hv4, hv5, hv6, hv7]
  rw [if_neg (by simp), if_neg hba, if_neg (by simpa [serUnrecognized] using hun)]

/-- Helper: a successful deserializer construction implies the flag is
present and boolean. -/
theorem deserializerInit_ok_good (c : Conf) (d : DeserCfg)
    (h : deserializerInit (some c) = Except.ok d) :
    (confGet c "use.deprecated.format").isSome ∧ ¬ deserWrongType c := by
  simp only [deserializerInit] at h
  split at h
  · simp at h
  · rename_i hpres
    split at h
    case h_2 => simp at h
    rename_i depV hdep
    exact ⟨Option.isSome_iff_ne_none.mpr (by simpa using hpres),
      by simp [deserWrongType, hdep, isBooleanVal]⟩

/-- Helper: a configuration with the mandatory flag present and boolean
constructs a deserializer, regardless of any other (even unrecognized)
options. -/
theorem deserializerInit_good_ok (c : Conf)
    (hpres : (confGet c "use.deprecated.format").isSome) (hw : ¬ deserWrongType c) :
    ∃ d, deserializerInit (some c) = Except.ok d := by
  simp only [deserWrongType, not_not] at hw
  obtain ⟨b, hv⟩ := (isBooleanVal_iff _).mp hw
  obtain ⟨u, hu⟩ := Option.isSome_iff_exists.mp hpres
  refine ⟨⟨b⟩, ?_⟩
  simp only [deserializerInit, hu, hv]
  rw [if_neg (by simp)]

/-- C6 (amended): serializer construction fails exactly when the legacy-mode
flag is omitted, both auto-register and use-latest-version are enabled, an
option name is unrecognized, or an option value has the wrong type;
deserializer construction fails exactly when the legacy-mode flag is omitted
or is not a boolean — the deserializer performs no unrecognized-option check
and no other type or conflict check. -/
theorem C6_construction_errors :
    (serializerInit none = Except.error ConfigError.missingFlag ∧
     deserializerInit none = Except.error ConfigError.missingFlag) ∧
    (∀ c : Conf, (∃ e, serializerInit (some c) = Except.error e) ↔
      (confGet c "use.deprecated.format" = none ∨ serWrongType c ∨ serConflict c ∨
        serUnrecognized c)) ∧
    (∀ c : Conf, (∃ e, deserializerInit (some c) = Except.error e) ↔
      (confGet c "use.deprecated.format" = none ∨ deserWrongType c)) := by
  refine ⟨⟨rfl, rfl⟩, ?_, ?_⟩
  · intro c
    constructor
    · rintro ⟨e, he⟩
      by_contra hno
      push_neg at hno
      obtain ⟨h1, h2, h3, h4⟩ := hno
      obtain ⟨fl, hok⟩ := serializerInit_good_ok c (Option.isSome_iff_ne_none.mpr h1) h2 h3 h4
      rw [hok] at he
      exact absurd he (by simp)
    · intro hbad
      cases hok : serializerInit (some c) with
      | error e => exact ⟨e, rfl⟩
      | ok fl =>
        obtain ⟨g1, g2, g3, g4⟩ := serializerInit_ok_good c fl hok
        rcases hbad with h | h | h | h
        · rw [h] at g1; simp at g1
        · exact absurd h g2
        · exact absurd h g3
        · exact absurd h g4
  · intro c
    constructor
    · rintro ⟨e, he⟩
      by_contra hno
      push_neg at hno
      obtain ⟨h1, h2⟩ := hno
      obtain ⟨d, hok⟩ := deserializerInit_good_ok c (Option.isSome_iff_ne_none.mpr h1) h2
      rw [hok] at he
      exact absurd he (by simp)
    · intro hbad
      cases hok : deserializerInit (some c) with
      | error e => exact ⟨e, rfl⟩
      | ok d =>
        obtain ⟨g1, g2⟩ := deserializerInit_ok_good c d hok
        rcases hbad with h | h
        · rw [h] at g1; simp at g1
        · exact absurd h g2

/-- C6 counterexample: the deserializer accepts a configuration containing an
unrecognized option name (`bogus`), because `ProtobufDeserializer.__init__`
never checks for leftover keys; the claim says construction must raise for an
unrecognized option name. -/
theorem C6_counterexample :
    deserializerInit (some [("use.deprecated.format", ConfVal.boolean false),
      ("bogus", ConfVal.boolean true)]) = Except.ok ⟨false⟩ ∧
    ¬ "bogus" ∈ serializerKeys :=
  ⟨rfl, by decide⟩

/-- Helper: masking with `0x7f` is reduction mod 128. -/
theorem and_127_eq_mod (m : Nat) : m &&& 127 = m % 128 := by
  have h : (127 : Nat) = 2 ^ 7 - 1 := by norm_num
  rw [h, Nat.and_pow_two_sub_one_eq_mod]

/-- Helper: the `_write_varint` loop guard `val & ~0x7f != 0` fails exactly
when the (non-negative) value fits in 7 bits. -/
theorem natAndNot_127_eq_zero_iff (m : Nat) : natAndNot m 127 = 0 ↔ m < 128 := by
  rw [natAndNot, and_127_eq_mod, Nat.xor_eq_zero]
  constructor
  · intro h
    rw [h]
    exact Nat.mod_lt _ (by norm_num)
  · intro h
    exact (Nat.mod_eq_of_lt h).symm

/-- Helper: a value below 128 has no continuation bit. -/
theorem and_128_eq_zero (m : Nat) (h : m < 128) : m &&& 128 = 0 := by
  apply Nat.eq_of_testBit_eq
  intro i
  simp only [Nat.testBit_and, Nat.zero_testBit]
  have h128 : (128 : Nat) = 2 ^ 7 := by norm_num
  rw [h128, Nat.testBit_two_pow]
  rcases eq_or_ne (7 : Nat) i with rfl | hne
  · simp [Nat.testBit_lt_two_pow (by norm_num at h ⊢; omega : m < 2 ^ 7)]
  · simp [hne]

/-- Helper: the payload bits of a continuation byte. -/
theorem or_128_and_127 (a : Nat) (h : a < 128) : (a ||| 128) &&& 127 = a := by
  rw [Nat.and_distrib_right, and_127_eq_mod, and_127_eq_mod, Nat.mod_eq_of_lt h]
  norm_num

/-- Helper: a continuation byte has its high bit set. -/
theorem or_128_and_128 (a : Nat) (h : a < 128) : (a ||| 128) &&& 128 = 128 := by
  rw [Nat.and_distrib_right, and_128_eq_zero a h]
  norm_num

/-- Helper: OR-ing a shifted group into an accumulator that fits below the
shift position is plain addition. -/
theorem or_shiftLeft_eq_add (value a shift : Nat) (h : value < 2 ^ shift) :
    value ||| (a <<< shift) = value + a * 2 ^ shift := by
  rw [Nat.shiftLeft_eq]
  have := Nat.mul_add_lt_is_or h a
  rw [Nat.mul_comm (2 ^ shift) a] at this
  rw [Nat.or_comm]
  omega

/-- Helper: one step of the `_write_varint` loop on a non-negative value,
restated over naturals. -/
theorem writeVarintLoop_ofNat_step (fuel : Nat) (n : Nat) (acc : List Nat) :
    writeVarintLoop (fuel + 1) (Int.ofNat n) acc =
      if n < 128 then some (acc ++ [n])
      else writeVarintLoop fuel (Int.ofNat (n >>> 7)) (acc ++ [(n &&& 127) ||| 128]) := by
  simp only [writeVarintLoop]
  have h1 : pyAnd (Int.ofNat n) (pyNot 0x7f) = Int.ofNat (natAndNot n 127) := rfl
  have h2 : pyShr (Int.ofNat n) 7 = Int.ofNat (n >>> 7) := rfl
  have h3 : (pyOr (pyAnd (Int.ofNat n) 0x7f) 0x80).toNat = (n &&& 127) ||| 128 := rfl
  have h4 : (Int.ofNat n).toNat = n := rfl
  rw [h1, h2, h3, h4]
  by_cases h : n < 128
  · rw [if_neg (by simp [Int.ofNat_eq_zero, (natAndNot_127_eq_zero_iff n).mpr h]), if_pos h]
  · rw [if_pos (by simp [Int.ofNat_eq_zero]; exact fun hz => h ((natAndNot_127_eq_zero_iff n).mp hz)),
      if_neg h]

/-- Helper: encoding and decoding a sub-128 value is a single byte. -/
theorem writeLoop_decode_small (fuel : Nat) (n : Nat) (acc : List Nat) (h : n < 128) :
    writeVarintLoop (fuel + 1) (Int.ofNat n) acc = some (acc ++ [n]) ∧
    ∀ shift value tail, value < 2 ^ shift →
      decodeVarintLoop (n :: tail) shift value = some (value + n * 2 ^ shift, tail) := by
  constructor
  · rw [writeVarintLoop_ofNat_step, if_pos h]
  · intro shift value tail hv
    simp only [decodeVarintLoop]
    rw [and_127_eq_mod, Nat.mod_eq_of_lt h]
    rw [if_neg (by simp [and_128_eq_zero n h])]
    rw [or_shiftLeft_eq_add _ _ _ hv]

/-- Helper: for any non-negative value within the fuel's range, the write
loop terminates, appends its bytes, and the decode loop reads exactly those
bytes back, accumulating the value at the current shift position. -/
theorem writeLoop_decode (fuel : Nat) :
    ∀ n acc, n < 2 ^ (7 * fuel + 7) →
      ∃ bs, writeVarintLoop (fuel + 1) (Int.ofNat n) acc = some (acc ++ bs) ∧
        ∀ shift value tail, value < 2 ^ shift →
          decodeVarintLoop (bs ++ tail) shift value = some (value + n * 2 ^ shift, tail) := by
  induction fuel with
  | zero =>
    intro n acc hn
    have h : n < 128 := by norm_num at hn; exact hn
    obtain ⟨hw, hd⟩ := writeLoop_decode_small 0 n acc h
    exact ⟨[n], hw, fun shift value tail hv => hd shift value tail hv⟩
  | succ f ih =>
    intro n acc hn
    by_cases h128 : n < 128
    · obtain ⟨hw, hd⟩ := writeLoop_decode_small (f + 1) n acc h128
      exact ⟨[n], hw, fun shift value tail hv => hd shift value tail hv⟩
    · have hdiv : n >>> 7 < 2 ^ (7 * f + 7) := by
        rw [Nat.shiftRight_eq_div_pow]
        rw [Nat.div_lt_iff_lt_mul (by positivity)]
        have he : 7 * (f + 1) + 7 = (7 * f + 7) + 7 := by ring
        rw [he, pow_add] at hn
        exact hn
      obtain ⟨bs', hw', hd'⟩ := ih (n >>> 7) (acc ++ [(n &&& 127) ||| 128]) hdiv
      refine ⟨((n &&& 127) ||| 128) :: bs', ?_, ?_⟩
      · rw [writeVarintLoop_ofNat_step, if_neg h128, hw']
        simp
      · intro shift value tail hv
        have hm : n &&& 127 < 128 := by rw [and_127_eq_mod]; omega
        simp only [List.cons_append, decodeVarintLoop]
        rw [or_128_and_127 _ hm, or_128_and_128 _ hm]
        rw [if_pos (by norm_num)]
        rw [or_shiftLeft_eq_add _ _ _ hv]
        simp only [List.append_eq]
        have hv' : value + (n &&& 127) * 2 ^ shift < 2 ^ (shift + 7) := by
          have h1 : (n &&& 127) ≤ 127 := by omega
          have h2 : (2 : Nat) ^ (shift + 7) = 128 * 2 ^ shift := by rw [pow_add]; ring
          calc value + (n &&& 127) * 2 ^ shift
              < 2 ^ shift + (n &&& 127) * 2 ^ shift := by omega
            _ ≤ 2 ^ shift + 127 * 2 ^ shift := by
                have := Nat.mul_le_mul_right (2 ^ shift) h1
                omega
            _ = 128 * 2 ^ shift := by ring
            _ = 2 ^ (shift + 7) := h2.symm
        rw [hd' (shift + 7) _ tail hv']
        have hsplit : n % 128 + 128 * (n / 128) = n := Nat.mod_add_div n 128
        have key : n % 128 * 2 ^ shift + n / 128 * 2 ^ (shift + 7) = n * 2 ^ shift := by
          have h2 : (2 : Nat) ^ (shift + 7) = 2 ^ shift * 128 := by rw [pow_add]; ring
          rw [h2]
          conv_rhs => rw [← hsplit]
          ring
        rw [and_127_eq_mod, Nat.shiftRight_eq_div_pow]
        norm_num
        omega

/-- Helper: zig-zag of a non-negative 64-bit value is doubling. -/
theorem zigzagRemap_ofNat (n : Nat) (h : n < 2 ^ 63) :
    zigzagRemap (Int.ofNat n) = Int.ofNat (2 * n) := by
  unfold zigzagRemap
  have h1 : pyShl (Int.ofNat n) 1 = Int.ofNat (2 * n) := by
    unfold pyShl
    rw [pow_one, Int.ofNat_eq_natCast, Int.ofNat_eq_natCast]
    push_cast
    ring
  have h2 : pyShr (Int.ofNat n) 63 = Int.ofNat 0 := by
    show Int.ofNat (n >>> 63) = Int.ofNat 0
    rw [Nat.shiftRight_eq_div_pow]
    rw [Nat.div_eq_of_lt h]
  rw [h1, h2]
  show Int.ofNat ((2 * n) ^^^ 0) = Int.ofNat (2 * n)
  rw [Nat.xor_zero]

/-- Helper: zig-zag of a negative 64-bit value `-(m+1)` is `2m + 1`. -/
theorem zigzagRemap_negSucc (m : Nat) (h : m < 2 ^ 63) :
    zigzagRemap (Int.negSucc m) = Int.ofNat (2 * m + 1) := by
  unfold zigzagRemap
  have h1 : pyShl (Int.negSucc m) 1 = Int.negSucc (2 * m + 1) := by
    unfold pyShl
    rw [pow_one, Int.negSucc_eq, Int.negSucc_eq]
    push_cast
    ring
  have h2 : pyShr (Int.negSucc m) 63 = Int.negSucc 0 := by
    show Int.negSucc (m >>> 63) = Int.negSucc 0
    rw [Nat.shiftRight_eq_div_pow]
    rw [Nat.div_eq_of_lt h]
  rw [h1, h2]
  show Int.ofNat ((2 * m + 1) ^^^ 0) = Int.ofNat (2 * m + 1)
  rw [Nat.xor_zero]

/-- Helper: the zig-zag inverse on an even raw value. -/
theorem zigzagUnmap_even (n : Nat) : zigzagUnmap (Int.ofNat (2 * n)) = Int.ofNat n := by
  unfold zigzagUnmap
  have h1 : pyAnd (Int.ofNat (2 * n)) 1 = Int.ofNat 0 := by
    show Int.ofNat ((2 * n) &&& 1) = Int.ofNat 0
    rw [Nat.and_one_is_mod]
    rw [Nat.mul_mod_right]
  have h2 : pyShr (Int.ofNat (2 * n)) 1 = Int.ofNat n := by
    show Int.ofNat ((2 * n) >>> 1) = Int.ofNat n
    rw [Nat.shiftRight_eq_div_pow]
    congr 1
    rw [pow_one]
    omega
  rw [h1, h2]
  show Int.ofNat (n ^^^ 0) = Int.ofNat n
  rw [Nat.xor_zero]

/-- Helper: the zig-zag inverse on an odd raw value. -/
theorem zigzagUnmap_odd (m : Nat) : zigzagUnmap (Int.ofNat (2 * m + 1)) = Int.negSucc m := by
  unfold zigzagUnmap
  have h1 : pyAnd (Int.ofNat (2 * m + 1)) 1 = Int.ofNat 1 := by
    show Int.ofNat ((2 * m + 1) &&& 1) = Int.ofNat 1
    rw [Nat.and_one_is_mod]
    congr 1
    omega
  have h2 : pyShr (Int.ofNat (2 * m + 1)) 1 = Int.ofNat m := by
    show Int.ofNat ((2 * m + 1) >>> 1) = Int.ofNat m
    rw [Nat.shiftRight_eq_div_pow]
    congr 1
    omega
  rw [h1, h2]
  show Int.negSucc (m ^^^ 0) = Int.negSucc m
  rw [Nat.xor_zero]

/-- Helper: raw varint round trip for any value below `2 ^ 64` at the
concrete fuel `varintFuel`. -/
theorem varint_ofNat_round (n : Nat) (h : n < 2 ^ 64) :
    ∃ bs, writeVarintLoop varintFuel (Int.ofNat n) [] = some bs ∧
      decodeVarintLoop bs 0 0 = some (n, []) := by
  have hb : n < 2 ^ (7 * 63 + 7) := lt_of_lt_of_le h (by norm_num)
  obtain ⟨bs, hw, hd⟩ := writeLoop_decode 63 n [] hb
  refine ⟨bs, ?_, ?_⟩
  · simpa [varintFuel] using hw
  · have := hd 0 0 [] (by norm_num)
    simpa using this

/-- Helper: on the value `-1` the `_write_varint` loop never terminates, at
any fuel: the guard `-1 & ~0x7f = -128` is never zero and `-1 >> 7 = -1`. -/
theorem writeVarintLoop_neg_one (fuel : Nat) : ∀ acc, writeVarintLoop fuel (-1) acc = none := by
  induction fuel with
  | zero => intro acc; rfl
  | succ f ih =>
    intro acc
    simp only [writeVarintLoop]
    rw [if_pos (by decide)]
    have h2 : pyShr (-1) 7 = (-1 : Int) := by decide
    rw [h2]
    exact ih _

/-- C4 counterexample: with zig-zag disabled, `_write_varint(-1, False)` does
not terminate (Python's arithmetic right shift keeps a negative value
negative forever), refuting the claim for negative 64-bit inputs with the
zig-zag setting `False`; `writeVarintLoop_neg_one` shows this at every fuel,
instantiated here at `varintFuel` and at one million iterations. -/
theorem C4_counterexample :
    write_varint (-1) false = none ∧ writeVarintLoop 1000000 (-1) [] = none :=
  ⟨writeVarintLoop_neg_one varintFuel [], writeVarintLoop_neg_one 1000000 []⟩

/-- C4 (amended): with zig-zag enabled, encoding terminates and decoding
returns the value for every signed 64-bit integer; with zig-zag disabled the
same holds for the non-negative 64-bit range only (negative inputs make the
encoder loop forever, see the counterexample). -/
theorem C4_varint_round_trip : ∀ v : Int,
    (-(2 ^ 63) ≤ v → v < 2 ^ 63 →
      ∃ bs, write_varint v true = some bs ∧ decode_varint bs true = some (v, [])) ∧
    (0 ≤ v → v < 2 ^ 63 →
      ∃ bs, write_varint v false = some bs ∧ decode_varint bs false = some (v, [])) := by
  intro v
  constructor
  · intro hlo hhi
    cases v with
    | ofNat n =>
      have hn : n < 2 ^ 63 := by
        have := hhi
        rw [Int.ofNat_eq_natCast] at this
        exact_mod_cast this
      obtain ⟨bs, hw, hd⟩ := varint_ofNat_round (2 * n) (by
        have : (2 : Nat) ^ 64 = 2 * 2 ^ 63 := by norm_num
        omega)
      refine ⟨bs, ?_, ?_⟩
      · show writeVarintLoop varintFuel (zigzagRemap (Int.ofNat n)) [] = some bs
        rw [zigzagRemap_ofNat n hn]
        exact hw
      · show (match decodeVarintLoop bs 0 0 with
          | none => none
          | some (raw, rest) => some (zigzagUnmap (Int.ofNat raw), rest)) = some (Int.ofNat n, [])
        rw [hd]
        simp only [zigzagUnmap_even]
    | negSucc m =>
      have hm : m < 2 ^ 63 := by
        rw [Int.negSucc_eq] at hlo
        have h63 : ((2 : Int) ^ 63) = ((2 ^ 63 : Nat) : Int) := by push_cast
        rw [h63] at hlo
        omega
      obtain ⟨bs, hw, hd⟩ := varint_ofNat_round (2 * m + 1) (by
        have : (2 : Nat) ^ 64 = 2 * 2 ^ 63 := by norm_num
        omega)
      refine ⟨bs, ?_, ?_⟩
      · show writeVarintLoop varintFuel (zigzagRemap (Int.negSucc m)) [] = some bs
        rw [zigzagRemap_negSucc m hm]
        exact hw
      · show (match decodeVarintLoop bs 0 0 with
          | none => none
          | some (raw, rest) => some (zigzagUnmap (Int.ofNat raw), rest)) = some (Int.negSucc m, [])
        rw [hd]
        simp only [zigzagUnmap_odd]
  · intro hlo hhi
    cases v with
    | ofNat n =>
      have hn : n < 2 ^ 63 := by
        have := hhi
        rw [Int.ofNat_eq_natCast] at this
        exact_mod_cast this
      obtain ⟨bs, hw, hd⟩ := varint_ofNat_round n (by
        have : (2 : Nat) ^ 63 < 2 ^ 64 := by norm_num
        omega)
      refine ⟨bs, ?_, ?_⟩
      · exact hw
      · show (match decodeVarintLoop bs 0 0 with
          | none => none
          | some (raw, rest) => some ((Int.ofNat raw : Int), rest)) = some (Int.ofNat n, [])
        rw [hd]
    | negSucc m =>
      exact absurd hlo (by simp [Int.negSucc_eq]; omega)

/-- C4 witness: the round trip at `-3` (zig-zag) and `300` (raw). -/
theorem C4_witness :
    (((-(2 ^ 63) : Int) ≤ -3) ∧ ((-3 : Int) < 2 ^ 63) ∧
      (∃ bs, write_varint (-3) true = some bs ∧ decode_varint bs true = some (-3, []))) ∧
    (((0 : Int) ≤ 300) ∧ ((300 : Int) < 2 ^ 63) ∧
      (∃ bs, write_varint 300 false = some bs ∧ decode_varint bs false = some (300, []))) :=
  ⟨⟨by norm_num, by norm_num, (C4_varint_round_trip (-3)).1 (by norm_num) (by norm_num)⟩,
    ⟨by norm_num, by norm_num, (C4_varint_round_trip 300).2 (by norm_num) (by norm_num)⟩⟩
